import Mathlib

/-!
# Verification of the IT-Dashboard spreadsheet transforms

A shallow embedding of the row/column-level logic of the four dashboard
modules (`AgingTable.py`, `ITDashboard.py`, `ToxicDashboard.py`,
`ITStabilityGraph.py`), together with proofs of the behavioural properties
stated in the specification.

Dates are modelled at day granularity as integers (a calendar day number),
matching the fact that every date computation in the sources works on whole
days.  Python strings are modelled as Lean `String`s, with small explicit
models of the Python primitives used (`str.strip`, `str.lower`,
`str.replace` with a one-character needle, substring containment `in`).
-/

namespace PyStr

/-- Characters stripped by Python's `str.strip()` (ASCII whitespace plus the
no-break space, which Python treats as whitespace). -/
def pyIsSpace (c : Char) : Bool :=
  c == ' ' || c == '\t' || c == '\n' || c == '\r' || c == '\x0B' || c == '\x0C' || c == ' '

/-- Model of Python `str.strip()`. -/
def pyStrip (s : String) : String :=
  String.mk (((s.toList.dropWhile pyIsSpace).reverse.dropWhile pyIsSpace).reverse)

/-- Model of Python `str.lower()` (ASCII case folding, which agrees with
Python on every character appearing in the fixed vocabularies). -/
def pyLower (s : String) : String :=
  String.mk (s.toList.map Char.toLower)

/-- Model of Python `str.replace(a, b)` for a one-character needle and a
one-character replacement: per-character substitution. -/
def replaceChar (a b : Char) (s : String) : String :=
  String.mk (s.toList.map (fun c => if c == a then b else c))

/-- Does the list `n` start the list `h`? -/
def startsWith : List Char → List Char → Bool
  | [], _ => true
  | _ :: _, [] => false
  | a :: n, b :: h => a == b && startsWith n h

/-- Model of Python's substring test `n in h`: `n` occurs contiguously in `h`. -/
def containsSub (n : List Char) : List Char → Bool
  | [] => n.isEmpty
  | c :: t => startsWith n (c :: t) || containsSub n t

/-- Substring containment on strings (Python `needle in hay`). -/
def substrOf (needle hay : String) : Bool :=
  containsSub needle.toList hay.toList

end PyStr

namespace AgingTable

open PyStr

/-- `OE_ORDER` from `AgingTable.py`. -/
def OE_ORDER : List String :=
  ["AZCH", "ID", "MY", "PH", "AIS", "SL", "TH", "TW", "AZAP"]

/-- The three metric labels from `AgingTable.py` (`METRICS`). -/
def M1 : String := "Incidents Total Aging > 31 days"

def M2 : String := "Incidents Aging > 31-90 days"

def M3 : String := "Incidents Aging > 90 days"

def METRICS : List String := [M1, M2, M3]

/-- `RAW_TO_OE_MAP` from `AgingTable.py`, in source order. -/
def RAW_TO_OE_MAP : List (String × String) :=
  [("Allianz China", "AZCH"),
   ("Allianz China - P&C", "AZCH"),
   ("Allianz Indonesia", "ID"),
   ("Allianz Malaysia", "MY"),
   ("Allianz Philippine", "PH"),
   ("Allianz Singapore", "AIS"),
   ("Allianz Sri Lanka", "SL"),
   ("Allianz Thailand", "TH"),
   ("Allianz Taiwan", "TW"),
   ("Allianz SE Singapore Branch OE", "AZAP")]

/-- The comma step of `normalize_oe`:
`if "," in s: s = s.split(",")[0].strip()`. -/
def beforeComma (s : String) : String :=
  if s.toList.contains ',' then pyStrip ((s.splitOn ",").headD s) else s

/-- `normalize_oe` from `AgingTable.py`.  `none` models a NaN cell
(`pd.isna`) on input and the no-match sentinel `None` on output.  The source
lowercases the raw value, keeps only the stripped text before the first
comma, and returns the code of the first `(substring, code)` pair whose
lowercased key occurs in that text. -/
def normalize_oe (raw : Option String) : Option String :=
  match raw with
  | none => none
  | some v =>
    (RAW_TO_OE_MAP.find? (fun p => substrOf (pyLower p.1) (beforeComma (pyLower v)))).map
      Prod.snd

/-- The claim's wording of the lookup contract (for comparison with
`normalize_oe`): the code of the first `(substring, code)` pair, taken in
list order, whose substring occurs case-insensitively in the prepared text;
`none` when no pair matches. -/
def firstMatchCode : List (String × String) → String → Option String
  | [], _ => none
  | (k, c) :: rest, s => if substrOf (pyLower k) s then some c else firstMatchCode rest s

/-- One row of the raw aging sheet: the `Created` and `Resolved` timestamps
(day numbers; `none` models NaT after `pd.to_datetime(..., errors="coerce")`)
and the free-text `Affected OEs` cell (`none` models NaN). -/
structure RawRow where
  created : Option Int
  resolved : Option Int
  oeRaw : Option String
deriving Repr, DecidableEq

/-- The `Days` column of `compute_counts_from_raw`:
`(resolved.fillna(today) - created).dt.days`; `none` (NaN, later dropped)
exactly when `Created` is NaT. -/
def rowDays (today : Int) (r : RawRow) : Option Int :=
  r.created.map (fun c => r.resolved.getD today - c)

/-- The surviving `(OE, Days)` pairs of `compute_counts_from_raw` after the
two `dropna` steps: rows with an unparseable `Created` or an unmatched OE are
excluded. -/
def validPairs (today : Int) (rows : List RawRow) : List (String × Int) :=
  rows.filterMap (fun r =>
    match rowDays today r, normalize_oe r.oeRaw with
    | some d, some oe => some (oe, d)
    | _, _ => none)

/-- Bucket predicate of the first metric: `raw["Days"] > 30`. -/
def gt31P (d : Int) : Bool := 30 < d

/-- Bucket predicate of the second metric: `(Days >= 31) & (Days <= 90)`. -/
def in3190P (d : Int) : Bool := 31 ≤ d && d ≤ 90

/-- Bucket predicate of the third metric: `raw["Days"] > 90`. -/
def gt90P (d : Int) : Bool := 90 < d

/-- `raw[pred].groupby("OE").size()` evaluated at one OE. -/
def bucketCount (pairs : List (String × Int)) (p : Int → Bool) (oe : String) : Nat :=
  pairs.countP (fun x => x.1 == oe && p x.2)

/-- The group keys of `raw[pred].groupby("OE")`: the OEs that have at least
one row satisfying the bucket predicate (each key once; pandas sorts the
keys, but every consumer of the result is a keyed lookup, so only the set of
keys and the per-key sizes matter). -/
def presentOEs (pairs : List (String × Int)) (p : Int → Bool) : List String :=
  ((pairs.filter (fun x => p x.2)).map Prod.fst).dedup

/-- One `groupby` section of `compute_counts_from_raw` with its metric label
attached. -/
def metricSection (pairs : List (String × Int)) (p : Int → Bool) (metric : String) :
    List (String × String × Nat) :=
  (presentOEs pairs p).map (fun oe => (oe, metric, bucketCount pairs p oe))

/-- `compute_counts_from_raw` from `AgingTable.py`: the concatenation of the
three per-metric `groupby` tables, as `(OE, Metric, Value)` triples.
`today` is `datetime.today()` passed explicitly. -/
def compute_counts_from_raw (today : Int) (rows : List RawRow) :
    List (String × String × Nat) :=
  let pairs := validPairs today rows
  metricSection pairs gt31P M1 ++ metricSection pairs in3190P M2 ++
    metricSection pairs gt90P M3

/-- The dictionary lookup `key_to_val.get((oe, metric), 0)` of
`append_next_month_with_counts`.  The `(OE, Metric)` keys of the counts
table are pairwise distinct, so first-match lookup agrees with the Python
dict built from it. -/
def key_to_val (counts : List (String × String × Nat)) (oe metric : String) : Nat :=
  ((counts.find? (fun e => e.1 == oe && e.2.1 == metric)).map (fun e => e.2.2)).getD 0

/-- One output row of the PowerBI table. -/
structure OutRow where
  oe : String
  metric : String
  date : Int
  value : Nat
deriving Repr, DecidableEq

/-- The 27-row block built by `append_next_month_with_counts`
(`for metric in METRICS: for oe in OE_ORDER: ...`). -/
def build_rows (counts : List (String × String × Nat)) (nextMonth : Int) : List OutRow :=
  METRICS.flatMap (fun metric =>
    OE_ORDER.map (fun oe => ⟨oe, metric, nextMonth, key_to_val counts oe metric⟩))

/-- `append_next_month_with_counts` from `AgingTable.py`:
`combined = pd.concat([existing, new_block])`.  `nextMonth` is the computed
`last_date + relativedelta(months=1)` passed explicitly. -/
def append_next_month_with_counts (existing : List OutRow) (nextMonth today : Int)
    (raw : List RawRow) : List OutRow :=
  existing ++ build_rows (compute_counts_from_raw today raw) nextMonth

/-- All `(OE, Metric)` pairs, in the order `build_rows` emits them. -/
def allPairs : List (String × String) :=
  METRICS.flatMap (fun metric => OE_ORDER.map (fun oe => (oe, metric)))

end AgingTable

namespace ITDashboard

open PyStr

/-- The cell-text normalization `parse_sheet` applies before header
comparison: `v.strip().replace("–", "-")` (the replaced character is the
en-dash U+2013; no other character is rewritten). -/
def normCell (v : String) : String :=
  replaceChar '–' '-' (pyStrip v)

/-- The header test of `parse_sheet`: `hdr.lower() in vv.lower()` where
`vv = v.strip().replace("–", "-")`. -/
def cellMatches (hdr v : String) : Bool :=
  substrOf (pyLower hdr) (pyLower (normCell v))

/-- One Python-dict assignment `header_map[c] = hdr`: update the value when
the key exists (keeping first-insertion order), else append. -/
def dictInsert (m : List (Nat × String)) (k : Nat) (v : String) : List (Nat × String) :=
  if m.any (fun p => p.1 == k) then m.map (fun p => if p.1 == k then (k, v) else p)
  else m ++ [(k, v)]

/-- The header scan of `parse_sheet`: rows `1..29` by columns `1..24`
(`range(1, 30)` and `range(1, 25)`), and for each string cell every wanted
header that matches is assigned, so the last match in scan order wins.
`grid r c = some v` models a cell holding the string `v`; `none` models an
empty or non-string cell (skipped by the `isinstance(v, str)` guard). -/
def buildHeaderMap (grid : Nat → Nat → Option String) (wanted : List String) :
    List (Nat × String) :=
  (List.range' 1 29).foldl (fun m r =>
    (List.range' 1 24).foldl (fun m c =>
      match grid r c with
      | some v => wanted.foldl (fun m hdr => if cellMatches hdr v then dictInsert m c hdr else m) m
      | none => m) m) []

/-- The error `parse_sheet` raises when the header scan comes back empty
(the spec's `HeaderNotFoundError`; the source raises it as a `ValueError`
carrying the sheet name). -/
inductive SheetErr where
  | headerNotFound (sheet : String)
deriving Repr, DecidableEq

/-- The header phase of `parse_sheet`: `if not header_map: raise ...`,
otherwise the column map is handed to the row-extraction phase. -/
def parse_sheet_headers (grid : Nat → Nat → Option String) (sheet : String)
    (wanted : List String) : Except SheetErr (List (Nat × String)) :=
  let m := buildHeaderMap grid wanted
  if m.isEmpty then .error (.headerNotFound sheet) else .ok m

/-- The message text of the raised error. -/
def errorMessage : SheetErr → String
  | .headerNotFound sheet => "❌ Could not find KPI headers in sheet: " ++ sheet

/-- The outcome the user sees: either the run's result or the error banner
`st.error(f"❌ Error: {e}")` from the `try/except` around `main`'s body. -/
inductive Outcome (α : Type) where
  | success (a : α)
  | errorBanner (msg : String)
deriving Repr, DecidableEq

/-- `main`'s surfacing of a raised error: any exception aborts the run and
is rendered verbatim inside the error banner. -/
def render {α : Type} (res : Except SheetErr α) : Outcome α :=
  match res with
  | .ok a => .success a
  | .error e => .errorBanner ("❌ Error: " ++ errorMessage e)

/-- `custom_order` of `ITDashboard.py` (step 7), in source order. -/
def custom_order : List String :=
  ["Allianz China - Holding",
   "Allianz Indonesia",
   "Allianz Philippine - L&H",
   "Allianz SingaporeⒼ",
   "Allianz Sri Lanka",
   "Allianz Taiwan - Life",
   "Allianz Thailand",
   "Allianz Australia - P&CⒼ",
   "Allianz Malaysia"]

/-- The categorical code `pd.Categorical(..., categories=custom_order).codes`
of one OE: its index in `custom_order`, and `-1` when absent. -/
def oeRank (oe : String) : Int :=
  match custom_order.findIdx? (· == oe) with
  | some i => (i : Int)
  | none => -1

/-- One row of the KPI2 table as far as the step-7 sort key is concerned:
the period (`Date`, a day number — `pd.to_datetime` of a well-formed cell)
and the `OE` label. -/
structure KRow where
  date : Int
  oe : String
deriving Repr, DecidableEq

/-- The lexicographic sort key of step 7:
`sort_values(["Date", "OE"], ascending=[True, True])` with the `OE` column
keyed by its categorical codes. -/
def rowLe (a b : KRow) : Bool :=
  a.date < b.date || (a.date == b.date && oeRank a.oe ≤ oeRank b.oe)

/-- Step 7 of `main`: the combined table sorted by period ascending then by
the fixed OE order. -/
def sortCombined (rows : List KRow) : List KRow :=
  rows.mergeSort rowLe

/-- Steps 6–7 of `main`: `pd.concat([existing, append_df])` followed by the
sort. -/
def concat_and_sort (existing block : List KRow) : List KRow :=
  sortCombined (existing ++ block)

end ITDashboard

namespace ToxicDashboard

open PyStr

/-- A Python `datetime.datetime` value at second granularity (the sources
never look below seconds). -/
structure PyDateTime where
  year : Int
  month : Nat
  day : Nat
  hour : Nat
  minute : Nat
  second : Nat
deriving Repr, DecidableEq

/-- `datetime(y, m, d)` — midnight of the given civil day. -/
def mkDate (y : Int) (m d : Nat) : PyDateTime :=
  ⟨y, m, d, 0, 0, 0⟩

/-- `add_one_month` from `ToxicDashboard.py`: `datetime(y + 1, 1, 1)` in
December, else `datetime(y, m + 1, 1)`. -/
def add_one_month (dt : PyDateTime) : PyDateTime :=
  if dt.month == 12 then mkDate (dt.year + 1) 1 1 else mkDate dt.year (dt.month + 1) 1

/-- Civil date from a day count relative to 1970-01-01 (proleptic Gregorian;
the standard era-based conversion). -/
def civilFromDays (z₀ : Int) : Int × Nat × Nat :=
  let z := z₀ + 719468
  let era := z.fdiv 146097
  let doe := z - era * 146097
  let yoe := (doe - doe.fdiv 1460 + doe.fdiv 36524 - doe.fdiv 146096).fdiv 365
  let y := yoe + era * 400
  let doy := doe - (365 * yoe + yoe.fdiv 4 - yoe.fdiv 100)
  let mp := (5 * doy + 2).fdiv 153
  let d := doy - (153 * mp + 2).fdiv 5 + 1
  let m := if mp < 10 then mp + 3 else mp - 9
  (if m ≤ 2 then y + 1 else y, m.toNat, d.toNat)

/-- Civil date from a Python `date.toordinal()` day number
(ordinal 1 = 0001-01-01; ordinal of 1970-01-01 is 719163). -/
def dateFromOrdinal (n : Int) : PyDateTime :=
  let ymd := civilFromDays (n - 719163)
  mkDate ymd.1 ymd.2.1 ymd.2.2

/-- `toordinal()` of openpyxl's `WINDOWS_EPOCH = datetime(1899, 12, 30)`. -/
def excelEpochOrdinal : Int := 693594

/-- openpyxl's `from_excel` on a whole-number serial: `epoch + days`, with
the extra day added for serials below 60 to reproduce the historical
1900-02-29 leap-year quirk of existing files. -/
def from_excel (n : Int) : PyDateTime :=
  if 0 ≤ n && n < 60 then dateFromOrdinal (excelEpochOrdinal + n + 1)
  else dateFromOrdinal (excelEpochOrdinal + n)

/-- Month abbreviations recognised by `strptime`'s `%b`, lowercased. -/
def monthAbbrevs : List String :=
  ["jan", "feb", "mar", "apr", "may", "jun", "jul", "aug", "sep", "oct", "nov", "dec"]

/-- One directive or literal of a `strptime` format string (only the
directives the source's format list uses). -/
inductive FTok where
  | lit (c : Char)
  | dirD
  | dirB
  | dirY2
  | dirY4
  | dirM
deriving Repr, DecidableEq

/-- Split a format string into directives and literals. -/
def parseFmt : List Char → Option (List FTok)
  | [] => some []
  | '%' :: c :: rest =>
    (match c with
     | 'd' => some FTok.dirD
     | 'b' => some FTok.dirB
     | 'y' => some FTok.dirY2
     | 'Y' => some FTok.dirY4
     | 'm' => some FTok.dirM
     | _ => none).bind fun t => (parseFmt rest).map fun ts => t :: ts
  | ['%'] => none
  | c :: rest => (parseFmt rest).map fun ts => FTok.lit c :: ts

/-- Numeric value of a decimal digit character. -/
def dval (c : Char) : Nat := c.toNat - 48

/-- A single nonzero digit (the `[1-9]` fallback branch of `%d`/`%m`). -/
def oneDigit (cs : List Char) : Option (Nat × List Char) :=
  match cs with
  | c :: rest => if c.isDigit && c != '0' then some (dval c, rest) else none
  | [] => none

/-- The `%d`/`%m` field: CPython's regex prefers a two-digit match with
value `1..hi`, else falls back to a single nonzero digit. -/
def parseNum2or1 (hi : Nat) (cs : List Char) : Option (Nat × List Char) :=
  match cs with
  | c1 :: c2 :: rest =>
    if c1.isDigit && c2.isDigit && decide (1 ≤ 10 * dval c1 + dval c2)
        && decide (10 * dval c1 + dval c2 ≤ hi) then
      some (10 * dval c1 + dval c2, rest)
    else oneDigit cs
  | _ => oneDigit cs

/-- The `%y` field: exactly two digits. -/
def parse2digits (cs : List Char) : Option (Nat × List Char) :=
  match cs with
  | c1 :: c2 :: rest =>
    if c1.isDigit && c2.isDigit then some (10 * dval c1 + dval c2, rest) else none
  | _ => none

/-- The `%Y` field: exactly four digits. -/
def parse4digits (cs : List Char) : Option (Nat × List Char) :=
  match cs with
  | c1 :: c2 :: c3 :: c4 :: rest =>
    if c1.isDigit && c2.isDigit && c3.isDigit && c4.isDigit then
      some (1000 * dval c1 + 100 * dval c2 + 10 * dval c3 + dval c4, rest)
    else none
  | _ => none

/-- The `%b` field: a case-insensitive three-letter month abbreviation. -/
def parseAbbrev (cs : List Char) : Option (Nat × List Char) :=
  match cs with
  | a :: b :: c :: rest =>
    match monthAbbrevs.findIdx? (· == String.mk [a.toLower, b.toLower, c.toLower]) with
    | some i => some (i + 1, rest)
    | none => none
  | _ => none

/-- The fields a format run has bound so far. -/
structure PAcc where
  yearF : Option Int
  monthF : Option Nat
  dayF : Option Nat
deriving Repr, DecidableEq

/-- Run a token list over the input; the whole input must be consumed
(CPython raises "unconverted data remains" otherwise). -/
def runToks : List FTok → List Char → PAcc → Option PAcc
  | [], [], acc => some acc
  | [], _ :: _, _ => none
  | FTok.lit c :: ts, d :: rest, acc => if d == c then runToks ts rest acc else none
  | FTok.lit _ :: _, [], _ => none
  | FTok.dirD :: ts, cs, acc =>
    (parseNum2or1 31 cs).bind fun vr => runToks ts vr.2 { acc with dayF := some vr.1 }
  | FTok.dirM :: ts, cs, acc =>
    (parseNum2or1 12 cs).bind fun vr => runToks ts vr.2 { acc with monthF := some vr.1 }
  | FTok.dirY2 :: ts, cs, acc =>
    (parse2digits cs).bind fun vr =>
      runToks ts vr.2 { acc with yearF := some (if vr.1 ≤ 68 then 2000 + (vr.1 : Int) else 1900 + (vr.1 : Int)) }
  | FTok.dirY4 :: ts, cs, acc =>
    (parse4digits cs).bind fun vr => runToks ts vr.2 { acc with yearF := some (vr.1 : Int) }
  | FTok.dirB :: ts, cs, acc =>
    (parseAbbrev cs).bind fun vr => runToks ts vr.2 { acc with monthF := some vr.1 }

/-- Gregorian leap year. -/
def isLeap (y : Int) : Bool := y % 4 == 0 && (y % 100 != 0 || y % 400 == 0)

/-- Length of a month. -/
def daysInMonth (y : Int) (m : Nat) : Nat :=
  if m == 2 then (if isLeap y then 29 else 28)
  else if m == 4 || m == 6 || m == 9 || m == 11 then 30
  else 31

/-- `datetime.strptime(s, fmt)` for the format directives used by the
source, including the final `datetime(...)` range validation (an
out-of-range day such as 31-Feb raises, which the caller treats as a format
failure). -/
def strptime (s fmt : String) : Option PyDateTime :=
  (parseFmt fmt.toList).bind fun toks =>
  (runToks toks s.toList ⟨none, none, none⟩).bind fun acc =>
  let y := acc.yearF.getD 1900
  let m := acc.monthF.getD 1
  let d := acc.dayF.getD 1
  if 1 ≤ y && y ≤ 9999 && d ≤ daysInMonth y m then some (mkDate y m d) else none

/-- The format list of `get_last_date_value`, in source order. -/
def FORMATS : List String :=
  ["%d-%b-%y", "%d-%b-%Y", "%d/%m/%Y", "%m/%d/%Y", "%Y-%m-%d"]

/-- One spreadsheet cell as `get_last_date_value` sees it: skipped when
empty (`None` or `""`), a native `datetime`, a numeric Excel serial, or
free text. -/
inductive CellVal where
  | empty
  | dt (d : PyDateTime)
  | num (n : Int)
  | str (s : String)
deriving Repr, DecidableEq

/-- The per-cell resolution of `get_last_date_value`: native datetime
passthrough, then numeric serial, then the string stripped and tried
against each format in order; a cell no rule resolves contributes
nothing. -/
def coerce_cell : CellVal → Option PyDateTime
  | .empty => none
  | .dt d => some d
  | .num n => some (from_excel n)
  | .str s => FORMATS.findSome? (fun fmt => strptime (pyStrip s) fmt)

/-- `get_last_date_value` from `ToxicDashboard.py`: scan the column cells
bottom-up (`range(ws.max_row, 1, -1)`, so `col` lists rows 2..max_row
top-down) and return the first cell that resolves; `none` when no cell
does. -/
def get_last_date_value (col : List CellVal) : Option PyDateTime :=
  col.reverse.findSome? coerce_cell

/-- Is a cell occupied? (`cell.value not in (None, "")`). -/
def isFilled (c : Option String) : Bool :=
  match c with
  | some s => !(s == "")
  | none => false

/-- Does a row have at least one occupied cell?
(`any(cell.value not in (None, "") for cell in ...)`). -/
def rowNonEmpty (row : List (Option String)) : Bool := row.any isFilled

/-- The descending scan of `get_last_filled_row`:
`for row in range(ws.max_row, 0, -1)` — `n` is the number of leading sheet
rows still to inspect, and row `i` (1-based) is `rows.getD (i-1)`. -/
def lastFilledAux (rows : List (List (Option String))) : Nat → Nat
  | 0 => 1
  | n + 1 => if rowNonEmpty (rows.getD n []) then n + 1 else lastFilledAux rows n

/-- `get_last_filled_row` from `ToxicDashboard.py`: the 1-based index of the
bottom-most row with any occupied cell, or 1 when every row is blank. -/
def get_last_filled_row (rows : List (List (Option String))) : Nat :=
  lastFilledAux rows rows.length

/-- The copy loop of `main` (`for r in range(start_row, end_row + 1)`):
skip rows with no occupied cell, otherwise advance `last_row` and copy the
source row there.  Returns the (1-based destination row, copied source row)
pairs in order. -/
def copyLoop (last : Nat) : List (List (Option String)) → List (Nat × List (Option String))
  | [] => []
  | row :: rest =>
    if rowNonEmpty row then (last + 1, row) :: copyLoop (last + 1) rest
    else copyLoop last rest

/-- The row transplant of `main`: rows 2..max_row of the source
(`src.drop 1` — `src` lists rows 1..max_row) copied after the destination's
last filled row. -/
def transplant (dest src : List (List (Option String))) :
    List (Nat × List (Option String)) :=
  copyLoop (get_last_filled_row dest) (src.drop 1)

end ToxicDashboard

namespace AgingTable

open PyStr

/-- The concrete raw file of the C1 scenario: four rows, all normalizing to
OE `MY`, whose elapsed-day values are 10, 35, 60 and 95. -/
def c1rows : List RawRow :=
  [⟨some 0, some 10, some "Allianz Malaysia"⟩,
   ⟨some 0, some 35, some "Allianz Malaysia"⟩,
   ⟨some 0, some 60, some "Allianz Malaysia"⟩,
   ⟨some 0, some 95, some "Allianz Malaysia"⟩]

theorem find?_map_eq_firstMatchCode (l : List (String × String)) (s : String) :
    (l.find? (fun p => substrOf (pyLower p.1) s)).map Prod.snd = firstMatchCode l s := by
  induction l with
  | nil => rfl
  | cons p rest ih =>
    obtain ⟨k, c⟩ := p
    rw [List.find?_cons]
    by_cases h : substrOf (pyLower k) s
    · simp [h, firstMatchCode]
    · simp only [Bool.not_eq_true] at h
      simp [h, firstMatchCode, ih]

theorem build_rows_value_eq (counts : List (String × String × Nat)) (d : Int) :
    ∀ r ∈ build_rows counts d, r.value = key_to_val counts r.oe r.metric := by
  intro r hr
  simp only [build_rows, List.mem_flatMap, List.mem_map] at hr
  obtain ⟨m, _, oe, _, rfl⟩ := hr
  rfl

theorem find?_metricSection_of_ne (pairs : List (String × Int)) (p : Int → Bool)
    (metric' metric oe : String) (h : (metric' == metric) = false) :
    (metricSection pairs p metric').find? (fun e => e.1 == oe && e.2.1 == metric) = none := by
  unfold metricSection
  induction presentOEs pairs p with
  | nil => rfl
  | cons o rest ih =>
    simp only [List.map_cons, List.find?_cons, h, Bool.and_false]
    exact ih

theorem find?_metricSection_self (pairs : List (String × Int)) (p : Int → Bool)
    (metric oe : String) :
    (metricSection pairs p metric).find? (fun e => e.1 == oe && e.2.1 == metric)
      = if oe ∈ presentOEs pairs p then some (oe, metric, bucketCount pairs p oe) else none := by
  unfold metricSection
  induction presentOEs pairs p with
  | nil => rfl
  | cons o rest ih =>
    by_cases h : o = oe
    · subst h
      simp only [List.map_cons]
      rw [List.find?_cons_of_pos _ (by simp)]
      simp
    · simp only [List.map_cons]
      rw [List.find?_cons_of_neg _ (by simp [h]), ih]
      have h' : ¬oe = o := fun he => h he.symm
      simp [List.mem_cons, h']

theorem bucketCount_eq_zero_of_not_present (pairs : List (String × Int)) (p : Int → Bool)
    (oe : String) (h : oe ∉ presentOEs pairs p) : bucketCount pairs p oe = 0 := by
  simp only [presentOEs, List.mem_dedup, List.mem_map, List.mem_filter] at h
  push_neg at h
  simp only [bucketCount, List.countP_eq_zero]
  intro x hx hcontra
  simp only [Bool.and_eq_true, beq_iff_eq] at hcontra
  exact absurd hcontra.1 (fun he => by simpa [he, hcontra.2] using h x ⟨hx, hcontra.2⟩)

theorem key_to_val_M1 (today : Int) (rows : List RawRow) (oe : String) :
    key_to_val (compute_counts_from_raw today rows) oe M1
      = bucketCount (validPairs today rows) gt31P oe := by
  unfold compute_counts_from_raw key_to_val
  rw [List.find?_append, List.find?_append]
  rw [find?_metricSection_self]
  by_cases h : oe ∈ presentOEs (validPairs today rows) gt31P
  · simp [h]
  · rw [if_neg h]
    rw [find?_metricSection_of_ne _ _ _ _ _ (by decide),
      find?_metricSection_of_ne _ _ _ _ _ (by decide)]
    simp [bucketCount_eq_zero_of_not_present _ _ _ h]

theorem key_to_val_M2 (today : Int) (rows : List RawRow) (oe : String) :
    key_to_val (compute_counts_from_raw today rows) oe M2
      = bucketCount (validPairs today rows) in3190P oe := by
  unfold compute_counts_from_raw key_to_val
  rw [List.find?_append, List.find?_append]
  rw [find?_metricSection_of_ne _ _ _ _ _ (by decide)]
  rw [find?_metricSection_self]
  by_cases h : oe ∈ presentOEs (validPairs today rows) in3190P
  · simp [h]
  · rw [if_neg h]
    rw [find?_metricSection_of_ne _ _ _ _ _ (by decide)]
    simp [bucketCount_eq_zero_of_not_present _ _ _ h]

end AgingTable

/-- **C1** (counterexample).  On a raw file whose rows yield elapsed days
{10, 35, 60, 95}, all for OE `MY`, `compute_counts_from_raw` produces 3 for
"Incidents Total Aging > 31 days" (the claim announces 2) and 2 for
"Incidents Aging > 31-90 days" (the claim announces 1), so the claimed
bucket counts {2, 1, 1} are wrong. -/
theorem C1_bucket_counts_counterexample :
    AgingTable.key_to_val (AgingTable.compute_counts_from_raw 1000 AgingTable.c1rows)
        "MY" AgingTable.M1 = 3 ∧
    AgingTable.key_to_val (AgingTable.compute_counts_from_raw 1000 AgingTable.c1rows)
        "MY" AgingTable.M2 = 2 ∧
    ¬ (AgingTable.key_to_val (AgingTable.compute_counts_from_raw 1000 AgingTable.c1rows)
          "MY" AgingTable.M1 = 2 ∧
       AgingTable.key_to_val (AgingTable.compute_counts_from_raw 1000 AgingTable.c1rows)
          "MY" AgingTable.M2 = 1 ∧
       AgingTable.key_to_val (AgingTable.compute_counts_from_raw 1000 AgingTable.c1rows)
          "MY" AgingTable.M3 = 1) := by
  refine ⟨by decide, by decide, ?_⟩
  intro h
  exact absurd h.1 (by decide)

/-- **C1** (amended).  A raw aging file whose rows yield elapsed-day values
{10, 35, 60, 95}, all normalized to OE `MY`, produces bucket counts for `MY`
of 3 for "Incidents Total Aging > 31 days" (days 35, 60 and 95 all exceed
the >30 cutoff), 2 for "Incidents Aging > 31-90 days" (35 and 60), and 1
for "Incidents Aging > 90 days" (95). -/
theorem C1_bucket_counts_amended :
    AgingTable.key_to_val (AgingTable.compute_counts_from_raw 1000 AgingTable.c1rows)
        "MY" AgingTable.M1 = 3 ∧
    AgingTable.key_to_val (AgingTable.compute_counts_from_raw 1000 AgingTable.c1rows)
        "MY" AgingTable.M2 = 2 ∧
    AgingTable.key_to_val (AgingTable.compute_counts_from_raw 1000 AgingTable.c1rows)
        "MY" AgingTable.M3 = 1 := by
  refine ⟨by decide, by decide, by decide⟩

open AgingTable in
/-- **C2**.  For every pair of input files (any raw row list, processing
date, existing table and computed next-month date), the block appended by
`append_next_month_with_counts` has exactly 27 rows; its `(OE, Metric)`
pairs are exactly `OE_ORDER × METRICS`, each exactly once; every row carries
the same next-month date; and a pair absent from the computed counts gets
Value 0 — regardless of how many raw rows matched. -/
theorem C2_period_block_invariant (existing : List AgingTable.OutRow)
    (nextMonth today : Int) (raw : List AgingTable.RawRow) :
    append_next_month_with_counts existing nextMonth today raw
        = existing ++ build_rows (compute_counts_from_raw today raw) nextMonth ∧
    (build_rows (compute_counts_from_raw today raw) nextMonth).length = 27 ∧
    (build_rows (compute_counts_from_raw today raw) nextMonth).map
        (fun r => (r.oe, r.metric)) = allPairs ∧
    allPairs.Nodup ∧
    (build_rows (compute_counts_from_raw today raw) nextMonth).map OutRow.date
        = List.replicate 27 nextMonth ∧
    (∀ r ∈ build_rows (compute_counts_from_raw today raw) nextMonth,
      (compute_counts_from_raw today raw).find?
          (fun e => e.1 == r.oe && e.2.1 == r.metric) = none → r.value = 0) := by
  refine ⟨rfl, rfl, rfl, by decide, rfl, ?_⟩
  intro r hr hnone
  rw [build_rows_value_eq _ _ r hr]
  simp [key_to_val, hnone]

open AgingTable in
/-- **C2** witness: at the empty raw file, empty existing table and
next-month date 5, the block has 27 rows and its first row (pair
`("AZCH", M1)`, absent from the empty counts) has Value 0. -/
theorem C2_period_block_invariant_witness :
    (AgingTable.build_rows (AgingTable.compute_counts_from_raw 0 []) 5).length = 27 ∧
    (⟨"AZCH", AgingTable.M1, 5, 0⟩ : AgingTable.OutRow).value = 0 :=
  ⟨(C2_period_block_invariant [] 5 0 []).2.1,
   (C2_period_block_invariant [] 5 0 []).2.2.2.2.2 ⟨"AZCH", AgingTable.M1, 5, 0⟩
     (by decide) (by decide)⟩

open AgingTable in
/-- **C3**.  For every raw input and every OE, the count
`compute_counts_from_raw` produces for "Incidents Total Aging > 31 days" is
at least the count it produces for "Incidents Aging > 31-90 days" for the
same OE: every row with 31 ≤ days ≤ 90 also has days > 30. -/
theorem C3_total_bucket_superset (today : Int) (rows : List AgingTable.RawRow)
    (oe : String) :
    key_to_val (compute_counts_from_raw today rows) oe M2
      ≤ key_to_val (compute_counts_from_raw today rows) oe M1 := by
  rw [key_to_val_M1, key_to_val_M2]
  refine List.countP_mono_left (fun x _ hx => ?_)
  simp only [in3190P, gt31P, Bool.and_eq_true, decide_eq_true_eq] at hx ⊢
  exact ⟨hx.1, by omega⟩

open AgingTable in
/-- **C4**.  `normalize_oe` returns the code of the first
`(substring, code)` pair of `RAW_TO_OE_MAP`, in list order, whose substring
occurs case-insensitively in the (stripped) text before the first comma;
a NaN input and a no-match input both yield the sentinel `none`; and rows
whose OE is the sentinel contribute nothing to the aggregation (filtering
them away leaves the aggregated pairs unchanged). -/
theorem C4_normalize_oe_contract :
    (∀ v : String,
      normalize_oe (some v) = firstMatchCode RAW_TO_OE_MAP (beforeComma (PyStr.pyLower v))) ∧
    normalize_oe none = none ∧
    (∀ v : String,
      (∀ p ∈ RAW_TO_OE_MAP,
        PyStr.substrOf (PyStr.pyLower p.1) (beforeComma (PyStr.pyLower v)) = false) →
      normalize_oe (some v) = none) ∧
    (∀ (today : Int) (rows : List AgingTable.RawRow),
      validPairs today (rows.filter (fun r => (normalize_oe r.oeRaw).isSome))
        = validPairs today rows) := by
  refine ⟨?_, rfl, ?_, ?_⟩
  · intro v
    exact find?_map_eq_firstMatchCode _ _
  · intro v h
    have hfind : RAW_TO_OE_MAP.find?
        (fun p => PyStr.substrOf (PyStr.pyLower p.1) (beforeComma (PyStr.pyLower v))) = none :=
      List.find?_eq_none.mpr (fun x hx => by simp [h x hx])
    simp [normalize_oe, hfind]
  · intro today rows
    induction rows with
    | nil => rfl
    | cons r rest ih =>
      cases hd : rowDays today r <;> cases h : normalize_oe r.oeRaw <;>
        simp_all [validPairs, List.filter_cons, List.filterMap_cons, hd, h]

open AgingTable in
/-- **C4** witness: a value matching no map entry normalizes to the
sentinel, and a NaN-OE row contributes nothing to the aggregated pairs. -/
theorem C4_normalize_oe_contract_witness :
    normalize_oe (some "zzz") = none ∧
    validPairs 0 ([⟨some 0, some 5, none⟩].filter
        (fun r => (normalize_oe r.oeRaw).isSome))
      = validPairs 0 [(⟨some 0, some 5, none⟩ : AgingTable.RawRow)] :=
  ⟨C4_normalize_oe_contract.2.2.1 "zzz" (by decide),
   C4_normalize_oe_contract.2.2.2 0 [⟨some 0, some 5, none⟩]⟩

open ToxicDashboard in
/-- **C10**.  `add_one_month` returns the first day of the month after its
argument's month — day 1, midnight, with the year incremented exactly in
December — and its result depends only on the argument's year and month, so
the day-of-month and time components are discarded. -/
theorem C10_add_one_month_first_of_next (dt : ToxicDashboard.PyDateTime) :
    (add_one_month dt).day = 1 ∧
    (add_one_month dt).hour = 0 ∧
    (add_one_month dt).minute = 0 ∧
    (add_one_month dt).second = 0 ∧
    (dt.month = 12 → (add_one_month dt).month = 1 ∧ (add_one_month dt).year = dt.year + 1) ∧
    (dt.month ≠ 12 → (add_one_month dt).month = dt.month + 1 ∧
      (add_one_month dt).year = dt.year) ∧
    (∀ dt' : ToxicDashboard.PyDateTime, dt'.year = dt.year → dt'.month = dt.month →
      add_one_month dt' = add_one_month dt) := by
  refine ⟨?_, ?_, ?_, ?_, ?_, ?_, ?_⟩
  · by_cases h : dt.month = 12 <;> simp [add_one_month, mkDate, h]
  · by_cases h : dt.month = 12 <;> simp [add_one_month, mkDate, h]
  · by_cases h : dt.month = 12 <;> simp [add_one_month, mkDate, h]
  · by_cases h : dt.month = 12 <;> simp [add_one_month, mkDate, h]
  · intro h
    simp [add_one_month, mkDate, h]
  · intro h
    simp [add_one_month, mkDate, h]
  · intro dt' hy hm
    simp only [add_one_month, mkDate, hy, hm]

/-- **C10** witness: from mid-December 2025 with a nonzero time of day,
the computed next period is 1 January 2026 at midnight. -/
theorem C10_add_one_month_first_of_next_witness :
    (ToxicDashboard.add_one_month ⟨2025, 12, 15, 3, 4, 5⟩).day = 1 ∧
    (ToxicDashboard.add_one_month ⟨2025, 12, 15, 3, 4, 5⟩).month = 1 ∧
    (ToxicDashboard.add_one_month ⟨2025, 12, 15, 3, 4, 5⟩).year = 2026 ∧
    (ToxicDashboard.add_one_month ⟨2025, 12, 15, 3, 4, 5⟩).hour = 0 :=
  ⟨(C10_add_one_month_first_of_next _).1,
   ((C10_add_one_month_first_of_next ⟨2025, 12, 15, 3, 4, 5⟩).2.2.2.2.1 rfl).1,
   by simpa using ((C10_add_one_month_first_of_next ⟨2025, 12, 15, 3, 4, 5⟩).2.2.2.2.1 rfl).2,
   (C10_add_one_month_first_of_next _).2.1⟩

namespace ITDashboard

open PyStr

theorem foldl_wanted_id (v : String) (c : Nat) (m : List (Nat × String))
    (wanted : List String) (h : ∀ hdr ∈ wanted, cellMatches hdr v = false) :
    wanted.foldl (fun m hdr => if cellMatches hdr v then dictInsert m c hdr else m) m = m := by
  induction wanted generalizing m with
  | nil => rfl
  | cons hdr rest ih =>
    simp only [List.foldl_cons, h hdr (List.mem_cons_self hdr rest), Bool.false_eq_true,
      if_false]
    exact ih m (fun x hx => h x (List.mem_cons_of_mem hdr hx))

theorem foldl_cols_id (grid : Nat → Nat → Option String) (wanted : List String) (r : Nat)
    (cols : List Nat) (m : List (Nat × String))
    (h : ∀ c ∈ cols, ∀ v, grid r c = some v → ∀ hdr ∈ wanted, cellMatches hdr v = false) :
    cols.foldl (fun m c =>
      match grid r c with
      | some v => wanted.foldl (fun m hdr => if cellMatches hdr v then dictInsert m c hdr else m) m
      | none => m) m = m := by
  induction cols generalizing m with
  | nil => rfl
  | cons c rest ih =>
    simp only [List.foldl_cons]
    have hstep : (match grid r c with
        | some v =>
          wanted.foldl (fun m hdr => if cellMatches hdr v then dictInsert m c hdr else m) m
        | none => m) = m := by
      cases hg : grid r c with
      | none => rfl
      | some v => exact foldl_wanted_id v c m wanted (h c (List.mem_cons_self c rest) v hg)
    rw [hstep]
    exact ih m (fun x hx => h x (List.mem_cons_of_mem c hx))

theorem foldl_rows_id (grid : Nat → Nat → Option String) (wanted : List String)
    (rows : List Nat) (m : List (Nat × String))
    (h : ∀ r ∈ rows, ∀ c ∈ List.range' 1 24, ∀ v, grid r c = some v →
      ∀ hdr ∈ wanted, cellMatches hdr v = false) :
    rows.foldl (fun m r =>
      (List.range' 1 24).foldl (fun m c =>
        match grid r c with
        | some v =>
          wanted.foldl (fun m hdr => if cellMatches hdr v then dictInsert m c hdr else m) m
        | none => m) m) m = m := by
  induction rows generalizing m with
  | nil => rfl
  | cons r rest ih =>
    simp only [List.foldl_cons]
    rw [foldl_cols_id grid wanted r _ _ (h r (List.mem_cons_self r rest))]
    exact ih m (fun x hx => h x (List.mem_cons_of_mem r hx))

theorem buildHeaderMap_empty (grid : Nat → Nat → Option String) (wanted : List String)
    (h : ∀ r ∈ List.range' 1 29, ∀ c ∈ List.range' 1 24, ∀ v, grid r c = some v →
      ∀ hdr ∈ wanted, cellMatches hdr v = false) :
    buildHeaderMap grid wanted = [] := by
  unfold buildHeaderMap
  exact foldl_rows_id grid wanted _ [] h

/-- The characters rewritten by `normCell` are not whitespace, so the strip
step commutes with the en-dash substitution. -/
theorem pyIsSpace_dashmap (c : Char) :
    pyIsSpace (if c == '–' then '-' else c) = pyIsSpace c := by
  by_cases h : c = '–'
  · subst h
    decide
  · simp [h]

theorem replaceChar_idem (s : String) :
    replaceChar '–' '-' (replaceChar '–' '-' s) = replaceChar '–' '-' s := by
  unfold replaceChar
  congr 1
  show List.map (fun c => if c == '–' then '-' else c)
      (List.map (fun c => if c == '–' then '-' else c) s.toList)
    = List.map (fun c => if c == '–' then '-' else c) s.toList
  rw [List.map_map]
  congr 1
  funext c
  by_cases h : c = '–'
  · simp [h]
  · simp [h]

theorem pyStrip_replaceChar (s : String) :
    pyStrip (replaceChar '–' '-' s) = replaceChar '–' '-' (pyStrip s) := by
  unfold pyStrip replaceChar
  have hcomp : pyIsSpace ∘ (fun c => if c == '–' then '-' else c) = pyIsSpace :=
    funext pyIsSpace_dashmap
  congr 1
  show ((((List.map (fun c => if c == '–' then '-' else c) s.toList).dropWhile
      pyIsSpace).reverse.dropWhile pyIsSpace).reverse)
    = List.map (fun c => if c == '–' then '-' else c)
        (((s.toList.dropWhile pyIsSpace).reverse.dropWhile pyIsSpace).reverse)
  rw [List.dropWhile_map, hcomp, ← List.map_reverse, List.dropWhile_map, hcomp,
    ← List.map_reverse]

/-- Header matching is invariant under rewriting en-dashes to hyphens in the
cell text. -/
theorem normCell_dash_invariant (v : String) :
    normCell (replaceChar '–' '-' v) = normCell v := by
  unfold normCell
  rw [pyStrip_replaceChar, replaceChar_idem]

end ITDashboard

open ITDashboard in
/-- **C6**.  When no wanted header matches anywhere in the scanned region
(rows 1–29, columns 1–24), `parse_sheet` raises the header-not-found error
instead of returning a silent empty column mapping, and `main`'s exception
handler surfaces it to the user as a visible error banner. -/
theorem C6_header_not_found_surfaces (grid : Nat → Nat → Option String) (sheet : String)
    (wanted : List String)
    (h : ∀ r ∈ List.range' 1 29, ∀ c ∈ List.range' 1 24, ∀ v, grid r c = some v →
      ∀ hdr ∈ wanted, cellMatches hdr v = false) :
    parse_sheet_headers grid sheet wanted = .error (.headerNotFound sheet) ∧
    render (parse_sheet_headers grid sheet wanted)
      = .errorBanner ("❌ Error: " ++ errorMessage (.headerNotFound sheet)) := by
  have hempty : buildHeaderMap grid wanted = [] := buildHeaderMap_empty grid wanted h
  constructor
  · simp [parse_sheet_headers, hempty]
  · simp [parse_sheet_headers, hempty, render]

open ITDashboard in
/-- **C6** witness: on a sheet with no string cells at all, the scan for
header "Score" fails and the error banner is shown. -/
theorem C6_header_not_found_surfaces_witness :
    parse_sheet_headers (fun _ _ => none) "KPI2" ["Score"]
      = .error (.headerNotFound "KPI2") ∧
    render (parse_sheet_headers (fun _ _ => none) "KPI2" ["Score"])
      = .errorBanner ("❌ Error: " ++ errorMessage (.headerNotFound "KPI2")) :=
  C6_header_not_found_surfaces (fun _ _ => none) "KPI2" ["Score"]
    (fun _ _ _ _ v hv => absurd hv (by simp))

open ITDashboard in
/-- **C7** (counterexample).  `parse_sheet` does not normalize the em-dash:
the cell text `"A—B"` (em-dash) is left unchanged by the pre-comparison
normalization, so the wanted header `"A-B"`, which differs only in that
character, fails to match; an interior non-breaking space is likewise left
unchanged and blocks matching. -/
theorem C7_normalization_counterexample :
    normCell "A—B" ≠ "A-B" ∧
    cellMatches "A-B" "A—B" = false ∧
    cellMatches "A B" "A B" = false := by
  exact ⟨by decide, by decide, by decide⟩

open ITDashboard in
/-- **C7** (amended).  Before header comparison in `parse_sheet`, cell text
is stripped of surrounding whitespace and en-dashes are replaced by ASCII
hyphens — header matching is invariant under replacing en-dashes with
hyphens, so a wanted header matches cell text that differs only in those
characters — but em-dashes and interior non-breaking spaces are not
normalized and prevent matching. -/
theorem C7_en_dash_only_normalization (hdr v : String) :
    cellMatches hdr (PyStr.replaceChar '–' '-' v) = cellMatches hdr v ∧
    cellMatches "A-B" "A–B" = true ∧
    cellMatches "A-B" "  A-B " = true ∧
    cellMatches "A-B" "A—B" = false ∧
    cellMatches "A B" "A B" = false := by
  refine ⟨?_, by decide, by decide, by decide, by decide⟩
  unfold cellMatches
  rw [normCell_dash_invariant]

namespace ITDashboard

theorem rowLe_trans (a b c : KRow) : rowLe a b → rowLe b c → rowLe a c := by
  unfold rowLe
  simp only [Bool.or_eq_true, Bool.and_eq_true, decide_eq_true_eq, beq_iff_eq]
  omega

theorem rowLe_total (a b : KRow) : rowLe a b || rowLe b a := by
  unfold rowLe
  simp only [Bool.or_eq_true, Bool.and_eq_true, decide_eq_true_eq, beq_iff_eq]
  omega

theorem rowLe_implies (a b : KRow) (h : rowLe a b) :
    a.date ≤ b.date ∧ (a.date = b.date → oeRank a.oe ≤ oeRank b.oe) := by
  unfold rowLe at h
  simp only [Bool.or_eq_true, Bool.and_eq_true, decide_eq_true_eq, beq_iff_eq] at h
  omega

end ITDashboard

open ITDashboard in
/-- **C8**.  Concatenating the existing table with the new period block and
sorting (step 6–7 of `ITDashboard.main`) rearranges exactly the given rows
(a permutation, so the existing rows are not mutated), and in the output any
earlier row has a date no later than any later row, and two rows of the same
period appear in the fixed `custom_order` ranking — which is not
alphabetical: `"Allianz China - Holding"` ranks before
`"Allianz Australia - P&CⒼ"` although it is alphabetically larger. -/
theorem C8_concat_sort_order (existing block : List ITDashboard.KRow) :
    (concat_and_sort existing block).Perm (existing ++ block) ∧
    List.Pairwise
      (fun a b => a.date ≤ b.date ∧ (a.date = b.date → oeRank a.oe ≤ oeRank b.oe))
      (concat_and_sort existing block) ∧
    oeRank "Allianz China - Holding" < oeRank "Allianz Australia - P&CⒼ" := by
  refine ⟨List.mergeSort_perm (existing ++ block) rowLe, ?_, by decide⟩
  have hs : (List.mergeSort (existing ++ block) rowLe).Pairwise (fun a b => rowLe a b) :=
    List.sorted_mergeSort rowLe_trans rowLe_total (existing ++ block)
  exact hs.imp (fun h => rowLe_implies _ _ h)

open ITDashboard in
/-- **C8** witness: on a concrete two-row table the sort emits the
later-period row after the earlier one and keeps the rows a permutation of
the input. -/
theorem C8_concat_sort_order_witness :
    (concat_and_sort [⟨2, "Allianz Malaysia"⟩] [⟨1, "Allianz Indonesia"⟩]).Perm
      ([⟨2, "Allianz Malaysia"⟩] ++ [⟨1, "Allianz Indonesia"⟩]) ∧
    oeRank "Allianz China - Holding" < oeRank "Allianz Australia - P&CⒼ" :=
  ⟨(C8_concat_sort_order [⟨2, "Allianz Malaysia"⟩] [⟨1, "Allianz Indonesia"⟩]).1,
   (C8_concat_sort_order [] []).2.2⟩

namespace ToxicDashboard

theorem copyLoop_map_snd (last : Nat) (l : List (List (Option String))) :
    (copyLoop last l).map Prod.snd = l.filter rowNonEmpty := by
  induction l generalizing last with
  | nil => rfl
  | cons row rest ih =>
    by_cases h : rowNonEmpty row
    · simp [copyLoop, h, List.filter_cons, ih]
    · simp [copyLoop, h, List.filter_cons, ih]

theorem copyLoop_map_fst (last : Nat) (l : List (List (Option String))) :
    (copyLoop last l).map Prod.fst = List.range' (last + 1) (l.filter rowNonEmpty).length := by
  induction l generalizing last with
  | nil => rfl
  | cons row rest ih =>
    by_cases h : rowNonEmpty row
    · simp [copyLoop, h, List.filter_cons, ih, List.range'_succ]
    · simp [copyLoop, h, List.filter_cons, ih]

theorem lastFilledAux_blank_after (rows : List (List (Option String))) :
    ∀ n j, lastFilledAux rows n ≤ j → j < n → rowNonEmpty (rows.getD j []) = false := by
  intro n
  induction n with
  | zero => exact fun j _ hj => absurd hj (Nat.not_lt_zero j)
  | succ n ih =>
    intro j h1 h2
    by_cases hb : rowNonEmpty (rows.getD n [])
    · rw [lastFilledAux, if_pos hb] at h1
      omega
    · rw [lastFilledAux, if_neg hb] at h1
      by_cases hj : j = n
      · subst hj
        simpa using hb
      · exact ih j h1 (by omega)

theorem lastFilledAux_hits (rows : List (List (Option String))) :
    ∀ n, (∃ j, j < n ∧ rowNonEmpty (rows.getD j []) = true) →
      1 ≤ lastFilledAux rows n ∧
      rowNonEmpty (rows.getD (lastFilledAux rows n - 1) []) = true := by
  intro n
  induction n with
  | zero => exact fun ⟨j, hj, _⟩ => absurd hj (Nat.not_lt_zero j)
  | succ n ih =>
    intro ⟨j, hj, hne⟩
    by_cases hb : rowNonEmpty (rows.getD n [])
    · rw [lastFilledAux, if_pos hb]
      exact ⟨by omega, by simpa using hb⟩
    · rw [lastFilledAux, if_neg hb]
      refine ih ⟨j, ?_, hne⟩
      rcases Nat.lt_succ_iff_lt_or_eq.mp hj with h | h
      · exact h
      · subst h
        exact absurd hne (by simpa using hb)

end ToxicDashboard

open ToxicDashboard in
/-- **C9**.  The row transplant copies exactly the source rows 2..max_row
that have at least one occupied cell, in order (fully blank rows are skipped
entirely), writes them at consecutive destination rows starting immediately
after the destination's last filled row, and `get_last_filled_row` really is
the bottom-up last non-empty row: every row at or after it is blank, and
when any row is occupied, the row it names is occupied. -/
theorem C9_row_transplant (dest src : List (List (Option String))) :
    (transplant dest src).map Prod.snd = (src.drop 1).filter rowNonEmpty ∧
    (transplant dest src).map Prod.fst
      = List.range' (get_last_filled_row dest + 1)
          (((src.drop 1).filter rowNonEmpty).length) ∧
    (∀ j, get_last_filled_row dest ≤ j → rowNonEmpty (dest.getD j []) = false) ∧
    ((∃ j, j < dest.length ∧ rowNonEmpty (dest.getD j []) = true) →
      1 ≤ get_last_filled_row dest ∧
      rowNonEmpty (dest.getD (get_last_filled_row dest - 1) []) = true) := by
  refine ⟨copyLoop_map_snd _ _, copyLoop_map_fst _ _, ?_, lastFilledAux_hits dest _⟩
  intro j hj
  by_cases hlen : j < dest.length
  · exact lastFilledAux_blank_after dest dest.length j hj hlen
  · rw [List.getD_eq_default _ _ (by omega)]
    rfl

open ToxicDashboard in
/-- **C9** witness: a five-row source range (rows 2–6) with one fully blank
row appends exactly four rows, placed at destination rows 3–6, immediately
after the destination's last filled row 2. -/
theorem C9_row_transplant_witness :
    (transplant [[some "h"], [some "x"]]
        [[some "hdr"], [some "a"], [none, some ""], [some "b"], [some "c"], [some "d"]]).map
      Prod.snd
      = ([[some "hdr"], [some "a"], [none, some ""], [some "b"], [some "c"],
          [some "d"]].drop 1).filter rowNonEmpty ∧
    1 ≤ get_last_filled_row [[some "h"], [some "x"]] ∧
    rowNonEmpty ([[some "h"], [some "x"]].getD
        (get_last_filled_row [[some "h"], [some "x"]] - 1) []) = true ∧
    (([[some "hdr"], [some "a"], [none, some ""], [some "b"], [some "c"],
        [some "d"]].drop 1).filter rowNonEmpty).length = 4 :=
  ⟨(C9_row_transplant [[some "h"], [some "x"]]
      [[some "hdr"], [some "a"], [none, some ""], [some "b"], [some "c"], [some "d"]]).1,
   ((C9_row_transplant [[some "h"], [some "x"]]
      [[some "hdr"], [some "a"], [none, some ""], [some "b"], [some "c"],
       [some "d"]]).2.2.2 ⟨1, by decide, by decide⟩).1,
   ((C9_row_transplant [[some "h"], [some "x"]]
      [[some "hdr"], [some "a"], [none, some ""], [some "b"], [some "c"],
       [some "d"]]).2.2.2 ⟨1, by decide, by decide⟩).2,
   by decide⟩

namespace ToxicDashboard

theorem findSome?_of_first {α : Type _} {β : Type _} (f : α → Option β) :
    ∀ (l : List α) (i : Nat) (hi : i < l.length),
      (∀ j (hj : j < i), f (l.get ⟨j, by omega⟩) = none) →
      (f (l.get ⟨i, hi⟩)).isSome = true →
      l.findSome? f = f (l.get ⟨i, hi⟩) := by
  intro l
  induction l with
  | nil => exact fun i hi => absurd hi (Nat.not_lt_zero i)
  | cons a t ih =>
    intro i hi hprev hsome
    cases i with
    | zero => exact List.findSome?_cons_of_isSome _ hsome
    | succ i' =>
      have h0 : f a = none := hprev 0 (Nat.succ_pos i')
      rw [List.findSome?_cons_of_isNone _ (by simp [h0])]
      exact ih i' (by simpa using hi) (fun j hj => hprev (j + 1) (by omega)) hsome

end ToxicDashboard

open ToxicDashboard in
/-- **C5**.  `get_last_date_value` resolves a cell by rule order: a native
datetime is returned unchanged (never reinterpreted); a numeric value is
interpreted as an Excel serial date (never string-parsed); a string is
stripped and parsed against the fixed format list where the first
successful format wins; a string no format resolves contributes nothing;
and a column in which no cell resolves yields `none` rather than an
error. -/
theorem C5_date_coercion_rules :
    (∀ d : ToxicDashboard.PyDateTime, coerce_cell (CellVal.dt d) = some d) ∧
    (∀ n : Int, coerce_cell (CellVal.num n) = some (from_excel n)) ∧
    (∀ (s : String) (i : Nat) (hi : i < FORMATS.length),
      (∀ j (hj : j < i), strptime (PyStr.pyStrip s) (FORMATS.get ⟨j, by omega⟩) = none) →
      (strptime (PyStr.pyStrip s) (FORMATS.get ⟨i, hi⟩)).isSome = true →
      coerce_cell (CellVal.str s) = strptime (PyStr.pyStrip s) (FORMATS.get ⟨i, hi⟩)) ∧
    (∀ s : String, (∀ fmt ∈ FORMATS, strptime (PyStr.pyStrip s) fmt = none) →
      coerce_cell (CellVal.str s) = none) ∧
    (∀ col : List CellVal, (∀ c ∈ col, coerce_cell c = none) →
      get_last_date_value col = none) := by
  refine ⟨fun d => rfl, fun n => rfl, ?_, ?_, ?_⟩
  · intro s i hi hprev hsome
    exact findSome?_of_first (fun fmt => strptime (PyStr.pyStrip s) fmt) FORMATS i hi
      hprev hsome
  · intro s h
    exact List.findSome?_eq_none_iff.mpr (fun fmt hf => h fmt hf)
  · intro col h
    exact List.findSome?_eq_none_iff.mpr (fun c hc => h c (List.mem_reverse.mp hc))

open ToxicDashboard in
/-- **C5** witness: a native datetime passes through; serial 45000 resolves
as an Excel date; the string `"15-Mar-25"` is resolved by the first format;
an unparseable string and a column of empty cells both yield `none`. -/
theorem C5_date_coercion_rules_witness :
    coerce_cell (CellVal.dt (mkDate 2025 3 15)) = some (mkDate 2025 3 15) ∧
    coerce_cell (CellVal.num 45000) = some (from_excel 45000) ∧
    coerce_cell (CellVal.str "15-Mar-25")
      = strptime (PyStr.pyStrip "15-Mar-25") (FORMATS.get ⟨0, by decide⟩) ∧
    coerce_cell (CellVal.str "not a date") = none ∧
    get_last_date_value [CellVal.empty] = none :=
  ⟨C5_date_coercion_rules.1 _,
   C5_date_coercion_rules.2.1 45000,
   C5_date_coercion_rules.2.2.1 "15-Mar-25" 0 (by decide)
     (fun j hj => absurd hj (Nat.not_lt_zero j)) (by decide),
   C5_date_coercion_rules.2.2.2.1 "not a date" (by decide),
   C5_date_coercion_rules.2.2.2.2 [CellVal.empty] (fun c hc => by
     rcases List.mem_singleton.mp hc with rfl
     rfl)⟩
